import Mathlib

/-!
# Verification of `audit.py` (`deep_structure_audit`)

Shallow embedding of the single-file analysis script.  The script loads a
CSV with columns `timestamp`, `R_functional`, `outcome_lagged`, derives an
`hour` column and two first-difference ("velocity") columns, and prints a
four-section report.

Modelling choices:
* A cell that is missing / NaN is `none : Option ℚ`; numeric values are ℚ.
* A parsed timestamp is a `Nat` (seconds since an epoch); `dt.hour` is
  `t / 3600 % 24`.
* The SciPy/NumPy statistical primitives the script calls (`pearsonr`,
  `welch`, `log10`) are opaque to the script's own logic, so they are
  parameters collected in a `StatLib` structure; every theorem quantifies
  over them.  `np.mean`, `np.argmax`, `Series.diff`, `dropna`, bucket
  selection and the degree-1 `np.polyfit` are embedded concretely.
* Each `print` emits one constructor of the `Line` type (string formatting
  of numbers is cosmetic and not modelled).
* An uncaught Python exception is `RunOutcome.raised`; a normal completion
  (the function returns `None` on every path) is `RunOutcome.returned`.
-/

/-- The statistical library primitives called by the script
(`scipy.stats.pearsonr`, `scipy.signal.welch`, `np.log10`).  They are
external library code, so they enter the model as parameters:
`pearsonr xs ys` returns (coefficient, two-sided p-value); `welch sig fs`
returns (frequencies, power spectral density); `log10` is applied
elementwise to the spectral bins. -/
structure StatLib where
  pearsonr : List ℚ → List ℚ → ℚ × ℚ
  welch : List (Option ℚ) → ℚ → List ℚ × List ℚ
  log10 : ℚ → ℚ

/-- One printed line of the report.  Each constructor corresponds to one
`print` statement of `audit.py`; numeric payloads carry the values that the
script interpolates into the format string. -/
inductive Line where
  | banner (path : String)
  | loadError (msg : String)
  | circHeader
  | meanCorr (m : ℚ)
  | peakWindow (i : ℕ)
  | circObs
  | velHeader
  | velCorr (r : ℚ)
  | velP (p : ℚ)
  | velObs
  | psdHeader
  | slopeLine (s : ℚ)
  | socStatus
  | powerLawStatus
  | verdictHeader
  | finalCount (n : ℕ)
  | finalVerdict (r : ℚ)
deriving DecidableEq, Repr

/-- The runtime failures that can escape the analysis (the script only
guards the load step): `np.argmax` on an empty list raises `ValueError`;
`scipy.stats.pearsonr` raises for inputs shorter than 2; `np.polyfit`
raises for mismatched or empty input vectors. -/
inductive RunErr where
  | argmaxEmpty
  | pearsonTooShort
  | polyfitMismatch
  | polyfitEmpty
deriving DecidableEq, Repr

/-- Outcome of a run of the entry point: `returned` models the Python
function returning `None` (it has no other return value), `raised e` models
an uncaught exception escaping it. -/
inductive RunOutcome where
  | returned
  | raised (e : RunErr)
deriving DecidableEq, Repr

/-- The table as parsed by `pd.read_csv`: the `timestamp` column may be
absent (`none`), its cells may each be unparseable (`none`) or parse to an
epoch time; the two numeric columns have possibly-missing (NaN) cells; any
additional columns are carried verbatim and never read by the analysis. -/
structure ParsedTable where
  timestamp : Option (List (Option ℕ))
  R_functional : List (Option ℚ)
  outcome_lagged : List (Option ℚ)
  extra : List (String × List String)
deriving DecidableEq

/-- The input file handed to the entry point: either unreadable/malformed
(`pd.read_csv` raises) or a parsed table. -/
inductive FileInput where
  | unreadable (msg : String)
  | parsed (t : ParsedTable)
deriving DecidableEq

/-- The dataframe after the load step, together with the derived columns
that later assignments fill in (`none` = column not yet created). -/
structure DataFrame where
  timestamp : List ℕ
  R_functional : List (Option ℚ)
  outcome_lagged : List (Option ℚ)
  hour : Option (List ℕ) := none
  R_velocity : Option (List (Option ℚ)) := none
  outcome_velocity : Option (List (Option ℚ)) := none
deriving DecidableEq

/-- `pd.to_datetime` over the timestamp column: succeeds only when every
cell parses. -/
def allParsed : List (Option ℕ) → Option (List ℕ)
  | [] => some []
  | none :: _ => none
  | some t :: rest => (allParsed rest).map (t :: ·)

/-- The guarded load step (lines 15–20 of `audit.py`): `pd.read_csv`
followed by `pd.to_datetime(df['timestamp'])`, any exception caught. -/
def load : FileInput → Except String DataFrame
  | .unreadable msg => .error msg
  | .parsed t =>
    match t.timestamp with
    | none => .error "KeyError: timestamp"
    | some cells =>
      match allParsed cells with
      | none => .error "could not convert timestamp column"
      | some ts =>
        .ok { timestamp := ts, R_functional := t.R_functional,
              outcome_lagged := t.outcome_lagged }

/-- `df['timestamp'].dt.hour` for one parsed timestamp. -/
def dtHour (t : ℕ) : ℕ := t / 3600 % 24

/-- Line 23: `df['hour'] = df['timestamp'].dt.hour`. -/
def addHour (df : DataFrame) : DataFrame :=
  { df with hour := some (df.timestamp.map dtHour) }

/-- Helper for `Series.diff`: the differences from a previous cell onward;
a difference is NaN (`none`) when either operand is. -/
def diffPairs : Option ℚ → List (Option ℚ) → List (Option ℚ)
  | _, [] => []
  | prev, c :: rest =>
    (match prev, c with
     | some a, some b => some (b - a)
     | _, _ => none) :: diffPairs c rest

/-- `Series.diff()`: first differences in original row order, with a
leading NaN. -/
def npDiff : List (Option ℚ) → List (Option ℚ)
  | [] => []
  | x :: xs => none :: diffPairs x xs

/-- Lines 45–46: `df['R_velocity'] = df['R_functional'].diff()` and
`df['outcome_velocity'] = df['outcome_lagged'].diff()`. -/
def addVelocities (df : DataFrame) : DataFrame :=
  { df with R_velocity := some (npDiff df.R_functional),
            outcome_velocity := some (npDiff df.outcome_lagged) }

/-- Line 27: `subset = df[df['hour'] == h]` restricted to the two value
columns (the only ones the stage reads). -/
def bucketOf (df : DataFrame) (h : ℕ) : List (Option ℚ × Option ℚ) :=
  (((df.hour.getD []).zip (df.R_functional.zip df.outcome_lagged)).filter
    (fun p => p.1 == h)).map Prod.snd

/-- Line 30: `subset.dropna(subset=['R_functional', 'outcome_lagged'])`,
keeping the unwrapped value pairs of the surviving rows. -/
def validOf (s : List (Option ℚ × Option ℚ)) : List (ℚ × ℚ) :=
  s.filterMap fun p =>
    match p.1, p.2 with
    | some a, some b => some (a, b)
    | _, _ => none

/-- Lines 24–33: the loop over hour buckets 0..23 collecting one Pearson
coefficient for each qualifying bucket (strictly more than 10 rows in the
bucket, and strictly more than 10 rows after dropping NaNs). -/
def circadian_corrs (lib : StatLib) (df : DataFrame) : List ℚ :=
  (List.range 24).filterMap fun h =>
    let subset := bucketOf df h
    if 10 < subset.length then
      let valid := validOf subset
      if 10 < valid.length then
        some (lib.pearsonr (valid.map Prod.fst) (valid.map Prod.snd)).1
      else none
    else none

/-- The qualifying hour buckets, in increasing hour order. -/
def qualHours (df : DataFrame) : List ℕ :=
  (List.range 24).filter fun h =>
    decide (10 < (bucketOf df h).length) &&
      decide (10 < (validOf (bucketOf df h)).length)

/-- `np.mean`: sum divided by length. -/
def npMean (l : List ℚ) : ℚ := l.sum / (l.length : ℚ)

/-- One step of `np.argmax`: combine the head `x` with the argmax result
for the tail `xs`; the head wins ties, giving the first maximum. -/
def npArgmaxStep (x : ℚ) (xs : List ℚ) : Option ℕ → Option ℕ
  | none => some 0
  | some j => if x < xs.getD j 0 then some (j + 1) else some 0

/-- `np.argmax`: index of the first maximum; `none` models the
`ValueError` raised on an empty sequence. -/
def npArgmax : List ℚ → Option ℕ
  | [] => none
  | x :: xs => npArgmaxStep x xs (npArgmax xs)

/-- Lines 35–41: section [1].  `np.mean` is evaluated first (it only warns
on an empty list); `np.argmax` then raises on an empty list, so in that
case nothing of section [1] is printed. -/
def circStage (lib : StatLib) (df : DataFrame) : List Line × Option RunErr :=
  let corrs := circadian_corrs lib df
  let m := npMean corrs
  match npArgmax corrs with
  | none => ([], some .argmaxEmpty)
  | some i => ([.circHeader, .meanCorr m, .peakWindow i, .circObs], none)

/-- Line 48: `v_df = df.dropna(subset=['R_velocity', 'outcome_velocity'])`,
keeping the unwrapped velocity pairs of the surviving rows. -/
def velPairs (df : DataFrame) : List (ℚ × ℚ) :=
  ((df.R_velocity.getD []).zip (df.outcome_velocity.getD [])).filterMap
    fun p =>
      match p.1, p.2 with
      | some a, some b => some (a, b)
      | _, _ => none

/-- Lines 49–54: section [2].  `scipy.stats.pearsonr` raises for inputs
shorter than 2. -/
def velStage (lib : StatLib) (df : DataFrame) : List Line × Option RunErr :=
  if (velPairs df).length < 2 then ([], some .pearsonTooShort)
  else
    ([.velHeader,
      .velCorr (lib.pearsonr ((velPairs df).map Prod.fst)
        ((velPairs df).map Prod.snd)).1,
      .velP (lib.pearsonr ((velPairs df).map Prod.fst)
        ((velPairs df).map Prod.snd)).2,
      .velObs], none)

/-- Modelled from the NumPy documentation of `np.polyfit(x, y, 1)`: the
ordinary-least-squares degree-1 fit, returned as (slope, intercept) —
highest power first, as NumPy orders the coefficients.  This closed form is
the unique solution of the least-squares normal equations whenever the
denominator `n·Σx² − (Σx)²` is nonzero (proved below). -/
def polyfit1 (x y : List ℚ) : ℚ × ℚ :=
  let n : ℚ := x.length
  let sx := x.sum
  let sy := y.sum
  let sxx := (x.map fun v => v * v).sum
  let sxy := ((x.zip y).map fun q => q.1 * q.2).sum
  let d := n * sxx - sx * sx
  ((n * sxy - sx * sy) / d, (sxx * sy - sx * sxy) / d)

/-- Sum of squared residuals of the line `y = a·x + b` over the paired
points of `x` and `y`. -/
def SSE (x y : List ℚ) (a b : ℚ) : ℚ :=
  ((x.zip y).map fun q => (q.2 - (a * q.1 + b)) ^ 2).sum

/-- `(a, b)` is an ordinary-least-squares fit of `y` against `x`: no other
line has a smaller sum of squared residuals. -/
def IsOLSFit (x y : List ℚ) (a b : ℚ) : Prop :=
  ∀ a' b', SSE x y a b ≤ SSE x y a' b'

/-- Line 62: `np.log10(freqs[1:])` — the frequencies returned by
`welch(df['R_functional'].values, fs=1.0)` with the zero-frequency first
bin discarded, log-transformed. -/
def logFreqs (lib : StatLib) (df : DataFrame) : List ℚ :=
  ((lib.welch df.R_functional 1).1.drop 1).map lib.log10

/-- Line 63: `np.log10(psd[1:])` — the power bins with the first bin
discarded, log-transformed. -/
def logPsd (lib : StatLib) (df : DataFrame) : List ℚ :=
  ((lib.welch df.R_functional 1).2.drop 1).map lib.log10

/-- Lines 58–71: section [3].  Welch PSD of the `R_functional` column (NaNs
included, original row order) at `fs = 1.0`; the first (zero-frequency) bin
of each array is discarded; `np.polyfit` of the log-log data gives the
slope; the classification threshold is `slope < -1.0`.  `np.polyfit`
raises on mismatched or empty input vectors. -/
def psdStage (lib : StatLib) (df : DataFrame) : List Line × Option RunErr :=
  if (logFreqs lib df).length ≠ (logPsd lib df).length then
    ([], some .polyfitMismatch)
  else if (logFreqs lib df).isEmpty then ([], some .polyfitEmpty)
  else
    ([.psdHeader, .slopeLine (polyfit1 (logFreqs lib df) (logPsd lib df)).1,
      if (polyfit1 (logFreqs lib df) (logPsd lib df)).1 < -1 then .socStatus
      else .powerLawStatus], none)

/-- Lines 74–76: section [4].  The record count in the closing narrative is
the literal `9,601` baked into the format string, not a value read from the
dataframe; the correlation is the velocity correlation of section [2]. -/
def verdictLines (vcorr : ℚ) : List Line :=
  [.verdictHeader, .finalCount 9601, .finalVerdict vcorr]

/-- The analysis pipeline after a successful load: derived columns are
assigned, then the four report sections run in order; the first stage
error aborts the run with an uncaught exception, keeping the lines already
printed. -/
def analyze (lib : StatLib) (df0 : DataFrame) : List Line × RunOutcome :=
  match circStage lib (addHour df0) with
  | (l1, some e) => (l1, .raised e)
  | (l1, none) =>
    match velStage lib (addVelocities (addHour df0)) with
    | (l2, some e) => (l1 ++ l2, .raised e)
    | (l2, none) =>
      match psdStage lib (addVelocities (addHour df0)) with
      | (l3, some e) => (l1 ++ l2 ++ l3, .raised e)
      | (l3, none) =>
        (l1 ++ l2 ++ l3 ++
          verdictLines (lib.pearsonr
            ((velPairs (addVelocities (addHour df0))).map Prod.fst)
            ((velPairs (addVelocities (addHour df0))).map Prod.snd)).1,
         .returned)

/-- The entry point `deep_structure_audit(file_path)`: banner first, then
the guarded load (printing one diagnostic and returning on failure), then
the analysis. -/
def deep_structure_audit (lib : StatLib) (path : String) (file : FileInput) :
    List Line × RunOutcome :=
  match load file with
  | .error e => ([.banner path, .loadError e], .returned)
  | .ok df =>
    match analyze lib df with
    | (ls, out) => (.banner path :: ls, out)

/-! ## Spec-side auxiliary definitions and concrete fixtures -/

/-- The values of a column, with missing cells removed. -/
def unwrapCol (l : List (Option ℚ)) : List ℚ := l.filterMap id

/-- Consecutive differences of a fully-present column, starting from a
first value: the mathematical content of `Series.diff` on NaN-free data. -/
def diffsFrom : ℚ → List ℚ → List ℚ
  | _, [] => []
  | prev, c :: rest => (c - prev) :: diffsFrom c rest

/-- A concrete instantiation of the statistical primitives, used to
evaluate the model at specific inputs. -/
def trivLib : StatLib where
  pearsonr := fun _ _ => (0, 0)
  welch := fun _ _ => ([0, 1, 2], [1, 1, 2])
  log10 := id

/-- A 12-row fixture: every record falls in hour bucket 5 and no cell is
missing, so bucket 5 qualifies and the whole pipeline completes. -/
def wtable : ParsedTable where
  timestamp := some ((List.range 12).map fun k => some (18000 + k))
  R_functional := (List.range 12).map fun k => some (k : ℚ)
  outcome_lagged := (List.range 12).map fun k => some ((k : ℚ) + 1)
  extra := [("note", ["a", "b"])]

/-- The fixture wrapped as an input file. -/
def wfile : FileInput := .parsed wtable

/-- The dataframe produced by loading `wfile`. -/
def wdf : DataFrame where
  timestamp := (List.range 12).map fun k => 18000 + k
  R_functional := (List.range 12).map fun k => some (k : ℚ)
  outcome_lagged := (List.range 12).map fun k => some ((k : ℚ) + 1)

/-- A 3-row fixture whose middle `R_functional` cell is missing, so both
differences at rows 1 and 2 are NaN and the velocity stage drops more than
the first row. -/
def cdf : DataFrame where
  timestamp := [0, 0, 0]
  R_functional := [some 1, none, some 2]
  outcome_lagged := [some 1, none, some 2]

/-- A fixture with no rows: every hour bucket is empty, so no bucket meets
the more-than-10-records threshold. -/
def etable : ParsedTable where
  timestamp := some []
  R_functional := []
  outcome_lagged := []
  extra := []

/-- The dataframe produced by loading `etable`. -/
def edf : DataFrame where
  timestamp := []
  R_functional := []
  outcome_lagged := []

/-- A 4-row fixture with no missing cells, for the velocity stage. -/
def vdf : DataFrame where
  timestamp := [0, 1, 2, 3]
  R_functional := [some 1, some 3, some 6, some 10]
  outcome_lagged := [some 2, some 4, some 7, some 11]

/-- The report lines that the analysis of `wdf` under `trivLib` produces
(everything after the banner). -/
def wlines : List Line :=
  [.circHeader, .meanCorr 0, .peakWindow 0, .circObs,
   .velHeader, .velCorr 0, .velP 0, .velObs,
   .psdHeader, .slopeLine 1, .powerLawStatus,
   .verdictHeader, .finalCount 9601, .finalVerdict 0]

/-- Sum of the residuals of the line `y = a·x + b` over paired points:
the quantity the first least-squares normal equation sets to zero. -/
def resSum (p : List (ℚ × ℚ)) (a b : ℚ) : ℚ :=
  (p.map fun q => q.2 - (a * q.1 + b)).sum

/-- Sum of the residuals weighted by the abscissa: the quantity the second
least-squares normal equation sets to zero. -/
def resXSum (p : List (ℚ × ℚ)) (a b : ℚ) : ℚ :=
  (p.map fun q => (q.2 - (a * q.1 + b)) * q.1).sum

/-! ## Helper lemmas -/

theorem load_ok_derived (file : FileInput) (df : DataFrame)
    (h : load file = .ok df) :
    df.hour = none ∧ df.R_velocity = none ∧ df.outcome_velocity = none := by
  cases file with
  | unreadable m => simp [load] at h
  | parsed t =>
    cases ht : t.timestamp with
    | none => simp [load, ht] at h
    | some cells =>
      cases hp : allParsed cells with
      | none => simp [load, ht, hp] at h
      | some ts =>
        simp only [load, ht, hp] at h
        cases h
        exact ⟨rfl, rfl, rfl⟩

theorem circadian_corrs_nil (lib : StatLib) (df : DataFrame)
    (hall : ∀ h, h < 24 →
      ¬(10 < (bucketOf df h).length ∧
         10 < (validOf (bucketOf df h)).length)) :
    circadian_corrs lib df = [] := by
  unfold circadian_corrs
  rw [List.filterMap_eq_nil_iff]
  intro a ha
  rw [List.mem_range] at ha
  have hn := hall a ha
  by_cases h1 : 10 < (bucketOf df a).length
  · by_cases h2 : 10 < (validOf (bucketOf df a)).length
    · exact absurd ⟨h1, h2⟩ hn
    · simp [h1, h2]
  · simp [h1]

/-! ## Claims about loading and the run skeleton (C5, C10, C9, C8, C6) -/

/-- C5: when loading fails (missing/unreadable/malformed file, or
unparseable timestamp column), the run prints only the banner and a single
diagnostic line, executes no analysis step, and returns normally — no
exception escapes the entry point. -/
theorem c5_load_failure (lib : StatLib) (path : String) (file : FileInput)
    (e : String) (h : load file = .error e) :
    deep_structure_audit lib path file =
      ([.banner path, .loadError e], .returned) := by
  simp [deep_structure_audit, h]

theorem c5_witness :
    deep_structure_audit trivLib "audit.csv" (.unreadable "missing") =
      ([.banner "audit.csv", .loadError "missing"], .returned) :=
  c5_load_failure trivLib "audit.csv" (.unreadable "missing") "missing" rfl

/-- C10: the banner line naming the file path is the first output on every
invocation (it is printed before the load is attempted); on load failure
the total output is exactly the banner followed by one error line; and the
entry point returns `None` (models: `.returned`) both on the failure path
and on the successful-analysis path. -/
theorem c10_banner_and_return (lib : StatLib) (path : String)
    (file : FileInput) :
    (deep_structure_audit lib path file).1.head? = some (.banner path)
    ∧ (∀ e, load file = .error e →
        deep_structure_audit lib path file =
          ([.banner path, .loadError e], .returned))
    ∧ (∀ df ls, load file = .ok df → analyze lib df = (ls, .returned) →
        deep_structure_audit lib path file =
          (.banner path :: ls, .returned)) := by
  refine ⟨?_, ?_, ?_⟩
  · cases hl : load file with
    | error e => simp [deep_structure_audit, hl]
    | ok df =>
      rcases ha : analyze lib df with ⟨ls, out⟩
      simp [deep_structure_audit, hl, ha]
  · intro e he
    simp [deep_structure_audit, he]
  · intro df ls hl ha
    simp [deep_structure_audit, hl, ha]

theorem c10_witness :
    deep_structure_audit trivLib "f.csv" (.unreadable "no such file") =
      ([.banner "f.csv", .loadError "no such file"], .returned) :=
  (c10_banner_and_return trivLib "f.csv" (.unreadable "no such file")).2.1
    "no such file" rfl

/-- C9: noninterference over extra columns — two parsed input files that
agree on the `timestamp`, `R_functional` and `outcome_lagged` columns (and
hence on row order) and differ only in their additional columns produce
identical printed output and identical outcome. -/
theorem c9_extra_columns_ignored (lib : StatLib) (path : String)
    (t1 t2 : ParsedTable) (h1 : t1.timestamp = t2.timestamp)
    (h2 : t1.R_functional = t2.R_functional)
    (h3 : t1.outcome_lagged = t2.outcome_lagged) :
    deep_structure_audit lib path (.parsed t1) =
      deep_structure_audit lib path (.parsed t2) := by
  cases t1
  cases t2
  simp only at h1 h2 h3
  subst h1
  subst h2
  subst h3
  rfl

theorem c9_witness :
    deep_structure_audit trivLib "w.csv" (.parsed wtable) =
      deep_structure_audit trivLib "w.csv"
        (.parsed { wtable with extra := [("junk", ["x"])] }) :=
  c9_extra_columns_ignored trivLib "w.csv" wtable
    { wtable with extra := [("junk", ["x"])] } rfl rfl rfl

/-- C8: invariant — the loaded dataframe has no derived columns yet; each
derived column (`hour`, `R_velocity`, `outcome_velocity`) is written once
as a pure function of the loaded input; the later assignment step does not
modify the already-derived `hour` column; and neither assignment step
modifies the original input columns. -/
theorem c8_derived_columns_pure (file : FileInput) (df : DataFrame)
    (hl : load file = .ok df) :
    (df.hour = none ∧ df.R_velocity = none ∧ df.outcome_velocity = none)
    ∧ (addHour df).hour = some (df.timestamp.map dtHour)
    ∧ (addVelocities (addHour df)).hour = (addHour df).hour
    ∧ (addHour df).timestamp = df.timestamp
    ∧ (addHour df).R_functional = df.R_functional
    ∧ (addHour df).outcome_lagged = df.outcome_lagged
    ∧ (addVelocities (addHour df)).timestamp = df.timestamp
    ∧ (addVelocities (addHour df)).R_functional = df.R_functional
    ∧ (addVelocities (addHour df)).outcome_lagged = df.outcome_lagged
    ∧ (addVelocities (addHour df)).R_velocity =
        some (npDiff df.R_functional)
    ∧ (addVelocities (addHour df)).outcome_velocity =
        some (npDiff df.outcome_lagged) :=
  ⟨load_ok_derived file df hl, rfl, rfl, rfl, rfl, rfl, rfl, rfl, rfl,
    rfl, rfl⟩

theorem c8_witness :
    wdf.hour = none ∧
      (addHour wdf).hour = some (wdf.timestamp.map dtHour) := by
  have h := c8_derived_columns_pure wfile wdf (by rfl)
  exact ⟨h.1.1, h.2.1⟩

/-- C6: on a successfully loaded dataset in which every hour bucket fails
one of the strictly-more-than-10 thresholds, the collected coefficient
list is empty and the run dies at the argmax over the empty collection:
an uncaught failure propagates out of the analysis and nothing beyond the
banner is printed (no graceful message). -/
theorem c6_all_buckets_fail (lib : StatLib) (path : String)
    (file : FileInput) (df : DataFrame) (hload : load file = .ok df)
    (hall : ∀ h, h < 24 →
      ¬(10 < (bucketOf (addHour df) h).length ∧
         10 < (validOf (bucketOf (addHour df) h)).length)) :
    circadian_corrs lib (addHour df) = []
    ∧ deep_structure_audit lib path file =
        ([.banner path], .raised .argmaxEmpty) := by
  have hnil := circadian_corrs_nil lib (addHour df) hall
  refine ⟨hnil, ?_⟩
  simp [deep_structure_audit, hload, analyze, circStage, hnil, npArgmax]

theorem c6_witness :
    circadian_corrs trivLib (addHour edf) = []
    ∧ deep_structure_audit trivLib "e.csv" (.parsed etable) =
        ([.banner "e.csv"], .raised .argmaxEmpty) :=
  c6_all_buckets_fail trivLib "e.csv" (.parsed etable) edf (by rfl)
    (by decide)

/-! ## The circadian collection and the peak label (C1, C2) -/

theorem filterMap_if_eq {α β : Type} (f : α → Option β) (p : α → Bool)
    (g : α → β) (hf : ∀ a, f a = if p a then some (g a) else none) :
    ∀ l : List α, l.filterMap f = (l.filter p).map g := by
  intro l
  induction l with
  | nil => simp
  | cons a t ih =>
    rw [List.filterMap_cons, List.filter_cons, hf a]
    by_cases hp : p a <;> simp [hp, ih]

theorem circadian_corrs_eq_map (lib : StatLib) (df : DataFrame) :
    circadian_corrs lib df = (qualHours df).map fun h =>
      (lib.pearsonr ((validOf (bucketOf df h)).map Prod.fst)
        ((validOf (bucketOf df h)).map Prod.snd)).1 := by
  unfold circadian_corrs qualHours
  refine filterMap_if_eq _ _ _ ?_ _
  intro a
  by_cases h1 : 10 < (bucketOf df a).length
  · by_cases h2 : 10 < (validOf (bucketOf df a)).length
    · simp [h1, h2]
    · simp [h1, h2]
  · simp [h1]

theorem mem_qualHours (df : DataFrame) (h : ℕ) :
    h ∈ qualHours df ↔
      h < 24 ∧ 10 < (bucketOf df h).length ∧
        10 < (validOf (bucketOf df h)).length := by
  unfold qualHours
  simp [List.mem_filter, List.mem_range, and_assoc]

theorem npArgmax_nil_iff (l : List ℚ) : npArgmax l = none ↔ l = [] := by
  cases l with
  | nil => simp [npArgmax]
  | cons x xs =>
    simp only [npArgmax]
    cases hm : npArgmax xs with
    | none => simp [npArgmaxStep]
    | some j =>
      simp only [npArgmaxStep]
      split <;> simp

theorem npArgmax_lt (l : List ℚ) (i : ℕ) (h : npArgmax l = some i) :
    i < l.length := by
  induction l generalizing i with
  | nil => simp [npArgmax] at h
  | cons x xs ih =>
    simp only [npArgmax] at h
    cases hm : npArgmax xs with
    | none =>
      rw [hm] at h
      simp only [npArgmaxStep, Option.some.injEq] at h
      subst h
      simp
    | some j =>
      rw [hm] at h
      simp only [npArgmaxStep] at h
      by_cases hx : x < xs.getD j 0
      · rw [if_pos hx] at h
        simp only [Option.some.injEq] at h
        subst h
        have := ih j hm
        simp
        omega
      · rw [if_neg hx] at h
        simp only [Option.some.injEq] at h
        subst h
        simp

theorem npArgmax_le (l : List ℚ) (i : ℕ) (h : npArgmax l = some i)
    (j : ℕ) (hj : j < l.length) (hi : i < l.length) :
    l.get ⟨j, hj⟩ ≤ l.get ⟨i, hi⟩ := by
  induction l generalizing i j with
  | nil => simp [npArgmax] at h
  | cons x xs ih =>
    simp only [npArgmax] at h
    cases hm : npArgmax xs with
    | none =>
      rw [hm] at h
      simp only [npArgmaxStep, Option.some.injEq] at h
      subst h
      have hxs : xs = [] := (npArgmax_nil_iff xs).mp hm
      subst hxs
      have hj0 : j = 0 := by
        have : j < 1 := by simpa using hj
        omega
      subst hj0
      rfl
    | some k =>
      rw [hm] at h
      simp only [npArgmaxStep] at h
      have hk : k < xs.length := npArgmax_lt xs k hm
      by_cases hx : x < xs.getD k 0
      · rw [if_pos hx] at h
        simp only [Option.some.injEq] at h
        subst h
        rw [List.getD_eq_get xs 0 hk] at hx
        cases j with
        | zero =>
          simpa using le_of_lt hx
        | succ j' =>
          have hj' : j' < xs.length := by simpa using hj
          simpa using ih k hm j' hj' hk
      · rw [if_neg hx] at h
        simp only [Option.some.injEq] at h
        subst h
        rw [List.getD_eq_get xs 0 hk] at hx
        push_neg at hx
        cases j with
        | zero => rfl
        | succ j' =>
          have hj' : j' < xs.length := by simpa using hj
          have := ih k hm j' hj' hk
          simp only [List.get_cons_succ, List.get_cons_zero]
          exact le_trans this hx

theorem npArgmax_first (l : List ℚ) (i : ℕ) (h : npArgmax l = some i)
    (j : ℕ) (hj : j < l.length) (hi : i < l.length) (hji : j < i) :
    l.get ⟨j, hj⟩ < l.get ⟨i, hi⟩ := by
  induction l generalizing i j with
  | nil => simp [npArgmax] at h
  | cons x xs ih =>
    simp only [npArgmax] at h
    cases hm : npArgmax xs with
    | none =>
      rw [hm] at h
      simp only [npArgmaxStep, Option.some.injEq] at h
      subst h
      exact absurd hji (Nat.not_lt_zero j)
    | some k =>
      rw [hm] at h
      simp only [npArgmaxStep] at h
      have hk : k < xs.length := npArgmax_lt xs k hm
      by_cases hx : x < xs.getD k 0
      · rw [if_pos hx] at h
        simp only [Option.some.injEq] at h
        subst h
        rw [List.getD_eq_get xs 0 hk] at hx
        cases j with
        | zero => simpa using hx
        | succ j' =>
          have hj' : j' < xs.length := by simpa using hj
          have hj'k : j' < k := by omega
          simpa using ih k hm j' hj' hk hj'k
      · rw [if_neg hx] at h
        simp only [Option.some.injEq] at h
        subst h
        exact absurd hji (Nat.not_lt_zero j)

theorem sorted_lb (l : List ℕ) (hp : l.Pairwise (· < ·)) (b : ℕ)
    (hb : ∀ x ∈ l, b ≤ x) (i : ℕ) (h : i < l.length) :
    b + i ≤ l.get ⟨i, h⟩ := by
  induction l generalizing b i with
  | nil => simp at h
  | cons a t ih =>
    rcases List.pairwise_cons.mp hp with ⟨ha, hpt⟩
    cases i with
    | zero => simpa using hb a (List.mem_cons_self a t)
    | succ i' =>
      have hb' : ∀ x ∈ t, b + 1 ≤ x := fun x hx =>
        Nat.succ_le_of_lt
          (lt_of_le_of_lt (hb a (List.mem_cons_self a t)) (ha x hx))
      have hi' : i' < t.length := by simpa using h
      have := ih hpt (b + 1) hb' i' hi'
      simp only [List.get_cons_succ]
      omega

theorem sorted_chain (l : List ℕ) (hp : l.Pairwise (· < ·)) (j i : ℕ)
    (hj : j < l.length) (hi : i < l.length) (hji : j ≤ i) :
    l.get ⟨j, hj⟩ + (i - j) ≤ l.get ⟨i, hi⟩ := by
  induction l generalizing j i with
  | nil => simp at hi
  | cons a t ih =>
    rcases List.pairwise_cons.mp hp with ⟨ha, hpt⟩
    cases j with
    | zero =>
      cases i with
      | zero => simp
      | succ i' =>
        have hb' : ∀ x ∈ t, a + 1 ≤ x := fun x hx =>
          Nat.succ_le_of_lt (ha x hx)
        have hi' : i' < t.length := by simpa using hi
        have := sorted_lb t hpt (a + 1) hb' i' hi'
        have hg0 : (a :: t).get ⟨0, hj⟩ = a := rfl
        simp only [List.get_cons_succ]
        omega
    | succ j' =>
      cases i with
      | zero => omega
      | succ i' =>
        have hj' : j' < t.length := by simpa using hj
        have hi' : i' < t.length := by simpa using hi
        have := ih hpt j' i' hj' hi' (by omega)
        simp only [List.get_cons_succ]
        omega

theorem qualHours_pairwise (df : DataFrame) :
    (qualHours df).Pairwise (· < ·) :=
  (List.pairwise_lt_range 24).filter _

theorem skipped_shift (l : List ℕ) (hp : l.Pairwise (· < ·)) (i : ℕ)
    (hi : i < l.length) (h' : ℕ) (hlt : h' < l.get ⟨i, hi⟩)
    (hmem : h' ∉ l) : i ≠ l.get ⟨i, hi⟩ := by
  intro heq
  have hgj : ∀ j (hjl : j < l.length), j ≤ i → l.get ⟨j, hjl⟩ = j := by
    intro j hjl hji
    have h1 := sorted_lb l hp 0 (fun x _ => Nat.zero_le x) j hjl
    have h2 := sorted_chain l hp j i hjl hi hji
    omega
  have hlt' : h' < i := by omega
  have hh' : h' < l.length := lt_trans hlt' hi
  have hg := hgj h' hh' (le_of_lt hlt')
  exact hmem (hg ▸ List.get_mem l h' hh')

/-- C1: the circadian audit collects one Pearson coefficient for hour
bucket h exactly when the bucket holds strictly more than 10 records and
strictly more than 10 remain after dropping rows with a missing value —
in increasing hour order, with no zero-fill for skipped buckets — and the
reported mean hourly correlation is the sum of exactly the collected
coefficients divided by their number. -/
theorem c1_circadian_collection (lib : StatLib) (df : DataFrame) :
    (∀ h, h ∈ qualHours df ↔
      h < 24 ∧ 10 < (bucketOf df h).length ∧
        10 < (validOf (bucketOf df h)).length)
    ∧ circadian_corrs lib df = (qualHours df).map (fun h =>
        (lib.pearsonr ((validOf (bucketOf df h)).map Prod.fst)
          ((validOf (bucketOf df h)).map Prod.snd)).1)
    ∧ (∀ i, npArgmax (circadian_corrs lib df) = some i →
        (circStage lib df).1 =
          [.circHeader,
           .meanCorr ((circadian_corrs lib df).sum /
             ((circadian_corrs lib df).length : ℚ)),
           .peakWindow i, .circObs]) := by
  refine ⟨mem_qualHours df, circadian_corrs_eq_map lib df, ?_⟩
  intro i hi
  simp [circStage, hi, npMean]

theorem c1_witness :
    (5 ∈ qualHours (addHour wdf))
    ∧ (circStage trivLib (addHour wdf)).1 =
        [.circHeader, .meanCorr 0, .peakWindow 0, .circObs] := by
  have h := c1_circadian_collection trivLib (addHour wdf)
  have hcorrs : circadian_corrs trivLib (addHour wdf) = [0] := by decide
  have h2 := h.2.2 0 (by rw [hcorrs]; rfl)
  refine ⟨(h.1 5).mpr (by decide), ?_⟩
  rw [h2, hcorrs]
  norm_num

/-- C2: the printed peak-hour label is `np.argmax` over the collected
(filtered) coefficient list — the position of its first maximum — not an
index into a full 24-length sequence; whenever some hour bucket earlier
than the peak's true hour was skipped, the printed label differs from the
true hour-of-day of the peak bucket. -/
theorem c2_peak_label_semantics (lib : StatLib) (df : DataFrame) (i : ℕ)
    (hmax : npArgmax (circadian_corrs lib df) = some i) :
    Line.peakWindow i ∈ (circStage lib df).1
    ∧ (∀ j (hj : j < (circadian_corrs lib df).length)
         (hi : i < (circadian_corrs lib df).length),
         (circadian_corrs lib df).get ⟨j, hj⟩ ≤
           (circadian_corrs lib df).get ⟨i, hi⟩)
    ∧ (∀ th, (qualHours df).get? i = some th →
         (∃ h', h' < th ∧ h' ∉ qualHours df) → i ≠ th) := by
  refine ⟨?_, fun j hj hi => npArgmax_le _ i hmax j hj hi, ?_⟩
  · simp [circStage, hmax]
  · intro th hth hex
    obtain ⟨h', hlt, hmem⟩ := hex
    obtain ⟨hi, hget⟩ := List.get?_eq_some.mp hth
    have hne := skipped_shift (qualHours df) (qualHours_pairwise df) i hi
      h' (by rw [hget]; exact hlt) hmem
    rw [← hget]
    exact hne

theorem c2_witness :
    Line.peakWindow 0 ∈ (circStage trivLib (addHour wdf)).1
    ∧ (0 : ℕ) ≠ 5 := by
  have h := c2_peak_label_semantics trivLib (addHour wdf) 0 (by decide)
  exact ⟨h.1, h.2.2 5 (by decide) ⟨0, by decide, by decide⟩⟩

/-! ## The velocity-coupling stage (C3) -/

theorem all_some_eq_map (l : List (Option ℚ))
    (h : ∀ x ∈ l, x.isSome = true) : l = (unwrapCol l).map some := by
  induction l with
  | nil => simp [unwrapCol]
  | cons a t ih =>
    cases a with
    | none => exact absurd (h none (List.mem_cons_self _ _)) (by simp)
    | some v =>
      simp only [unwrapCol, List.filterMap_cons, id, List.map_cons]
      have := ih fun x hx => h x (List.mem_cons_of_mem _ hx)
      simp only [unwrapCol] at this
      rw [← this]

theorem diffPairs_map_some (a : ℚ) (xs : List ℚ) :
    diffPairs (some a) (xs.map some) = (diffsFrom a xs).map some := by
  induction xs generalizing a with
  | nil => simp [diffPairs, diffsFrom]
  | cons c t ih => simp [diffPairs, diffsFrom, ih]

theorem diffsFrom_length (a : ℚ) (xs : List ℚ) :
    (diffsFrom a xs).length = xs.length := by
  induction xs generalizing a with
  | nil => rfl
  | cons c t ih => simp [diffsFrom, ih]

theorem npDiff_all_some (l : List (Option ℚ))
    (h : ∀ x ∈ l, x.isSome = true) (v : ℚ) (vs : List ℚ)
    (huv : unwrapCol l = v :: vs) :
    npDiff l = none :: (diffsFrom v vs).map some := by
  have hm := all_some_eq_map l h
  rw [huv] at hm
  rw [hm]
  simp only [List.map_cons, npDiff]
  rw [diffPairs_map_some]

theorem npDiff_length (l : List (Option ℚ)) :
    (npDiff l).length = l.length := by
  cases l with
  | nil => rfl
  | cons x xs =>
    simp only [npDiff, List.length_cons, Nat.succ_inj]
    induction xs generalizing x with
    | nil => rfl
    | cons c t ih => simp [diffPairs, ih]

theorem npDiff_head (l : List (Option ℚ)) (h : l ≠ []) :
    (npDiff l).head? = some none := by
  cases l with
  | nil => exact absurd rfl h
  | cons x xs => rfl

theorem zip_map_some_filterMap (A B : List ℚ) :
    (((A.map some).zip (B.map some)).filterMap fun p =>
      match p.1, p.2 with
      | some a, some b => some (a, b)
      | _, _ => none) = A.zip B := by
  induction A generalizing B with
  | nil => simp
  | cons a t ih =>
    cases B with
    | nil => simp
    | cons b s => simp [ih]

/-- C3 (amended): the velocity stage computes first differences of
`R_functional` and `outcome_lagged` in original row order (leading missing
value, length preserved), then drops exactly the rows where either
difference is missing; when both input columns are fully present this
leaves precisely the consecutive-difference pairs of rows 1..n-1 — i.e.
exactly the first row is dropped — and the stage prints the Pearson
coefficient and two-sided p-value over the two difference sequences.  (As
stated, the claim's "drops exactly the first row" fails for columns with
interior missing values, see `c3_counterexample`.) -/
theorem c3_velocity_stage (lib : StatLib) (df0 : DataFrame)
    (hR : ∀ x ∈ df0.R_functional, x.isSome = true)
    (hO : ∀ x ∈ df0.outcome_lagged, x.isSome = true)
    (r0 : ℚ) (rs : List ℚ) (o0 : ℚ) (os : List ℚ)
    (huR : unwrapCol df0.R_functional = r0 :: rs)
    (huO : unwrapCol df0.outcome_lagged = o0 :: os)
    (hlen : rs.length = os.length) :
    (addVelocities (addHour df0)).R_velocity =
      some (npDiff df0.R_functional)
    ∧ (addVelocities (addHour df0)).outcome_velocity =
        some (npDiff df0.outcome_lagged)
    ∧ (npDiff df0.R_functional).length = df0.R_functional.length
    ∧ npDiff df0.R_functional = none :: (diffsFrom r0 rs).map some
    ∧ velPairs (addVelocities (addHour df0)) =
        (diffsFrom r0 rs).zip (diffsFrom o0 os)
    ∧ (velPairs (addVelocities (addHour df0))).length =
        df0.R_functional.length - 1
    ∧ (2 ≤ (velPairs (addVelocities (addHour df0))).length →
        velStage lib (addVelocities (addHour df0)) =
          ([.velHeader,
            .velCorr (lib.pearsonr
              ((velPairs (addVelocities (addHour df0))).map Prod.fst)
              ((velPairs (addVelocities (addHour df0))).map Prod.snd)).1,
            .velP (lib.pearsonr
              ((velPairs (addVelocities (addHour df0))).map Prod.fst)
              ((velPairs (addVelocities (addHour df0))).map Prod.snd)).2,
            .velObs], none)) := by
  have hdR := npDiff_all_some df0.R_functional hR r0 rs huR
  have hdO := npDiff_all_some df0.outcome_lagged hO o0 os huO
  have hvp : velPairs (addVelocities (addHour df0)) =
      (diffsFrom r0 rs).zip (diffsFrom o0 os) := by
    show ((npDiff df0.R_functional).zip
      (npDiff df0.outcome_lagged)).filterMap _ = _
    rw [hdR, hdO]
    simp only [List.zip_cons_cons, List.filterMap_cons]
    exact zip_map_some_filterMap _ _
  have hlR : df0.R_functional.length = rs.length + 1 := by
    have hm := all_some_eq_map df0.R_functional hR
    rw [hm, huR]
    simp
  have hvl : (velPairs (addVelocities (addHour df0))).length =
      df0.R_functional.length - 1 := by
    rw [hvp]
    simp [diffsFrom_length, hlen, hlR]
  refine ⟨rfl, rfl, npDiff_length _, hdR, hvp, hvl, ?_⟩
  intro h2
  rw [velStage, if_neg (by omega)]

theorem c3_counterexample :
    npDiff cdf.R_functional = [none, none, none]
    ∧ velPairs (addVelocities (addHour cdf)) = []
    ∧ cdf.R_functional.length - 1 = 2
    ∧ (velPairs (addVelocities (addHour cdf))).length ≠
        cdf.R_functional.length - 1 := by
  refine ⟨rfl, rfl, rfl, ?_⟩
  decide

theorem c3_witness :
    velPairs (addVelocities (addHour vdf)) = [(2, 2), (3, 3), (4, 4)]
    ∧ velStage trivLib (addVelocities (addHour vdf)) =
        ([.velHeader, .velCorr 0, .velP 0, .velObs], none) := by
  have h := c3_velocity_stage trivLib vdf (by decide) (by decide)
    1 [3, 6, 10] 2 [4, 7, 11] (by decide) (by decide) (by decide)
  have hvp := h.2.2.2.2.1
  have hlen := h.2.2.2.2.2.1
  refine ⟨hvp.trans (by norm_num [diffsFrom]), ?_⟩
  have h6 := h.2.2.2.2.2.2 (by rw [hlen]; decide)
  exact h6.trans (by decide)

/-! ## The closing narrative and its record count (C4) -/

theorem circStage_shape (lib : StatLib) (df : DataFrame) (l : List Line)
    (h : circStage lib df = (l, none)) :
    ∃ m i, l = [.circHeader, .meanCorr m, .peakWindow i, .circObs] := by
  simp only [circStage] at h
  cases hm : npArgmax (circadian_corrs lib df) with
  | none => rw [hm] at h; simp at h
  | some i =>
    rw [hm] at h
    simp only [Prod.mk.injEq] at h
    exact ⟨_, i, h.1.symm⟩

theorem velStage_shape (lib : StatLib) (df : DataFrame) (l : List Line)
    (h : velStage lib df = (l, none)) :
    ∃ c p, l = [.velHeader, .velCorr c, .velP p, .velObs] := by
  simp only [velStage] at h
  by_cases hc : (velPairs df).length < 2
  · rw [if_pos hc] at h; simp at h
  · rw [if_neg hc] at h
    simp only [Prod.mk.injEq] at h
    exact ⟨_, _, h.1.symm⟩

theorem psdStage_shape (lib : StatLib) (df : DataFrame) (l : List Line)
    (h : psdStage lib df = (l, none)) :
    ∃ s, l = [.psdHeader, .slopeLine s,
      if s < -1 then Line.socStatus else Line.powerLawStatus] := by
  simp only [psdStage] at h
  by_cases h1 : (logFreqs lib df).length ≠ (logPsd lib df).length
  · rw [if_pos h1] at h; simp at h
  · rw [if_neg h1] at h
    by_cases h2 : (logFreqs lib df).isEmpty
    · rw [if_pos h2] at h; simp at h
    · rw [if_neg h2] at h
      simp only [Prod.mk.injEq] at h
      exact ⟨_, h.1.symm⟩

theorem analyze_returned (lib : StatLib) (df : DataFrame) (l : List Line)
    (h : analyze lib df = (l, .returned)) :
    ∃ l1 l2 l3,
      circStage lib (addHour df) = (l1, none)
      ∧ velStage lib (addVelocities (addHour df)) = (l2, none)
      ∧ psdStage lib (addVelocities (addHour df)) = (l3, none)
      ∧ l = l1 ++ l2 ++ l3 ++ verdictLines (lib.pearsonr
          ((velPairs (addVelocities (addHour df))).map Prod.fst)
          ((velPairs (addVelocities (addHour df))).map Prod.snd)).1 := by
  unfold analyze at h
  split at h
  next l1 e heq => exact absurd h (by simp)
  next l1 heq =>
    split at h
    next l2 e heq2 => exact absurd h (by simp)
    next l2 heq2 =>
      split at h
      next l3 e heq3 => exact absurd h (by simp)
      next l3 heq3 =>
        simp only [Prod.mk.injEq] at h
        exact ⟨l1, l2, l3, heq, heq2, heq3, h.1.symm⟩

/-- C4 (amended): the closing narrative of section [4] always names the
fixed count `9,601` — the literal baked into the script's format string —
together with the velocity correlation of section [2]; it never prints the
actual loaded record count (so the printed count equals the loaded count
only for a file of exactly 9,601 records, contrary to the claim — see
`c4_counterexample`). -/
theorem c4_final_count_constant (lib : StatLib) (path : String)
    (file : FileInput) (df : DataFrame) (l : List Line)
    (hl : load file = .ok df) (ha : analyze lib df = (l, .returned)) :
    Line.finalCount 9601 ∈ (deep_structure_audit lib path file).1
    ∧ Line.finalVerdict (lib.pearsonr
        ((velPairs (addVelocities (addHour df))).map Prod.fst)
        ((velPairs (addVelocities (addHour df))).map Prod.snd)).1
        ∈ (deep_structure_audit lib path file).1
    ∧ ∀ n, n ≠ 9601 →
        Line.finalCount n ∉ (deep_structure_audit lib path file).1 := by
  obtain ⟨l1, l2, l3, h1, h2, h3, hl4⟩ := analyze_returned lib df l ha
  have hout : (deep_structure_audit lib path file).1 =
      Line.banner path :: l := by
    simp [deep_structure_audit, hl, ha]
  obtain ⟨m, i, hs1⟩ := circStage_shape lib (addHour df) l1 h1
  obtain ⟨c, p, hs2⟩ := velStage_shape lib (addVelocities (addHour df)) l2 h2
  obtain ⟨s, hs3⟩ := psdStage_shape lib (addVelocities (addHour df)) l3 h3
  subst hl4
  subst hs1
  subst hs2
  subst hs3
  rw [hout]
  refine ⟨by simp [verdictLines], by simp [verdictLines], ?_⟩
  intro n hn
  by_cases hsoc : s < -1 <;> simp [verdictLines, hsoc, hn]

theorem circStage_wdf_eval :
    circStage trivLib (addHour wdf) =
      ([.circHeader, .meanCorr 0, .peakWindow 0, .circObs], none) := by
  have hcorrs : circadian_corrs trivLib (addHour wdf) = [0] := by decide
  simp only [circStage, hcorrs]
  norm_num [npMean, npArgmax, npArgmaxStep]

theorem velStage_wdf_eval :
    velStage trivLib (addVelocities (addHour wdf)) =
      ([.velHeader, .velCorr 0, .velP 0, .velObs], none) := by
  have hvl : (velPairs (addVelocities (addHour wdf))).length = 11 := by
    decide
  unfold velStage
  rw [if_neg (by omega)]
  rfl

theorem psdStage_wdf_eval :
    psdStage trivLib (addVelocities (addHour wdf)) =
      ([.psdHeader, .slopeLine 1, .powerLawStatus], none) := by
  have hs : (polyfit1 (logFreqs trivLib (addVelocities (addHour wdf)))
      (logPsd trivLib (addVelocities (addHour wdf)))).1 = 1 := by
    norm_num [polyfit1, logFreqs, logPsd, trivLib]
  unfold psdStage
  rw [if_neg (by decide), if_neg (by decide), hs]
  norm_num

theorem analyze_wdf_eval : analyze trivLib wdf = (wlines, .returned) := by
  simp only [analyze, circStage_wdf_eval, velStage_wdf_eval,
    psdStage_wdf_eval]
  simp [wlines, verdictLines, trivLib]

theorem c4_counterexample :
    load wfile = .ok wdf
    ∧ wdf.timestamp.length = 12
    ∧ Line.finalCount 9601 ∈
        (deep_structure_audit trivLib "audit.csv" wfile).1
    ∧ Line.finalCount 12 ∉
        (deep_structure_audit trivLib "audit.csv" wfile).1 := by
  have hload : load wfile = .ok wdf := by rfl
  have hout : (deep_structure_audit trivLib "audit.csv" wfile).1 =
      Line.banner "audit.csv" :: wlines := by
    simp [deep_structure_audit, hload, analyze_wdf_eval]
  refine ⟨hload, by decide, ?_, ?_⟩ <;> rw [hout] <;> decide

theorem c4_witness :
    Line.finalCount 9601 ∈ (deep_structure_audit trivLib "w.csv" wfile).1
    ∧ Line.finalCount 12 ∉
        (deep_structure_audit trivLib "w.csv" wfile).1 := by
  have h := c4_final_count_constant trivLib "w.csv" wfile wdf wlines
    (by rfl) analyze_wdf_eval
  exact ⟨h.1, h.2.2 12 (by decide)⟩

/-! ## The spectral audit and ordinary least squares (C7) -/

theorem resSum_cons (q : ℚ × ℚ) (t : List (ℚ × ℚ)) (a b : ℚ) :
    resSum (q :: t) a b = (q.2 - (a * q.1 + b)) + resSum t a b := by
  simp [resSum]

theorem resXSum_cons (q : ℚ × ℚ) (t : List (ℚ × ℚ)) (a b : ℚ) :
    resXSum (q :: t) a b = (q.2 - (a * q.1 + b)) * q.1 + resXSum t a b := by
  simp [resXSum]

theorem sse_decomp (p : List (ℚ × ℚ)) (a b a' b' : ℚ) :
    (p.map fun q => (q.2 - (a' * q.1 + b')) ^ 2).sum =
      (p.map fun q => (q.2 - (a * q.1 + b)) ^ 2).sum
      + (p.map fun q => ((a - a') * q.1 + (b - b')) ^ 2).sum
      + 2 * ((a - a') * resXSum p a b + (b - b') * resSum p a b) := by
  induction p with
  | nil => simp [resSum, resXSum]
  | cons q t ih =>
    simp only [List.map_cons, List.sum_cons, resSum_cons, resXSum_cons]
    linear_combination ih

theorem sum_sq_nonneg (p : List (ℚ × ℚ)) (c d : ℚ) :
    0 ≤ (p.map fun q => (c * q.1 + d) ^ 2).sum := by
  induction p with
  | nil => simp
  | cons q t ih =>
    simp only [List.map_cons, List.sum_cons]
    exact add_nonneg (sq_nonneg _) ih

theorem resSum_eq (x y : List ℚ) (a b : ℚ) (h : x.length = y.length) :
    resSum (x.zip y) a b = y.sum - a * x.sum - (x.length : ℚ) * b := by
  induction x generalizing y with
  | nil =>
    cases y with
    | nil => simp [resSum]
    | cons yh yt => simp at h
  | cons xh xt ih =>
    cases y with
    | nil => simp at h
    | cons yh yt =>
      have h' : xt.length = yt.length := by simpa using h
      rw [List.zip_cons_cons, resSum_cons, ih yt h']
      simp only [List.sum_cons, List.length_cons]
      push_cast
      ring

theorem resXSum_eq (x y : List ℚ) (a b : ℚ) (h : x.length = y.length) :
    resXSum (x.zip y) a b =
      ((x.zip y).map fun q => q.1 * q.2).sum
        - a * (x.map fun v => v * v).sum - b * x.sum := by
  induction x generalizing y with
  | nil =>
    cases y with
    | nil => simp [resXSum]
    | cons yh yt => simp at h
  | cons xh xt ih =>
    cases y with
    | nil => simp at h
    | cons yh yt =>
      have h' : xt.length = yt.length := by simpa using h
      rw [List.zip_cons_cons, resXSum_cons, ih yt h']
      simp only [List.zip_cons_cons, List.map_cons, List.sum_cons]
      ring

theorem polyfit1_normal (x y : List ℚ) (h : x.length = y.length)
    (hD : (x.length : ℚ) * (x.map fun v => v * v).sum - x.sum * x.sum ≠ 0) :
    resSum (x.zip y) (polyfit1 x y).1 (polyfit1 x y).2 = 0
    ∧ resXSum (x.zip y) (polyfit1 x y).1 (polyfit1 x y).2 = 0 := by
  rw [resSum_eq x y _ _ h, resXSum_eq x y _ _ h]
  simp only [polyfit1]
  constructor
  · field_simp
    ring
  · field_simp
    ring

theorem polyfit1_isOLS (x y : List ℚ) (h : x.length = y.length)
    (hD : (x.length : ℚ) * (x.map fun v => v * v).sum - x.sum * x.sum ≠ 0) :
    IsOLSFit x y (polyfit1 x y).1 (polyfit1 x y).2 := by
  intro a' b'
  have hne := polyfit1_normal x y h hD
  have hdec := sse_decomp (x.zip y) (polyfit1 x y).1 (polyfit1 x y).2 a' b'
  rw [hne.1, hne.2] at hdec
  have hnn := sum_sq_nonneg (x.zip y) ((polyfit1 x y).1 - a')
    ((polyfit1 x y).2 - b')
  unfold SSE
  rw [hdec]
  linarith

/-- C7: the spectral audit feeds the `R_functional` column, in original
row order, to Welch's method at sampling frequency 1.0, discards the first
(zero-frequency) bin of the frequency and power arrays, fits
log10(power) against log10(frequency) by `np.polyfit` degree 1 — which is
a genuine ordinary-least-squares fit (no line has smaller squared
residual) — reports the fitted slope, and prints the
self-organized-criticality label exactly when the slope is < -1.0 and the
power-law-consistent label exactly otherwise. -/
theorem c7_spectral (lib : StatLib) (df : DataFrame)
    (hlen : (logFreqs lib df).length = (logPsd lib df).length)
    (hne : logFreqs lib df ≠ [])
    (hD : ((logFreqs lib df).length : ℚ) *
        ((logFreqs lib df).map fun v => v * v).sum -
        (logFreqs lib df).sum * (logFreqs lib df).sum ≠ 0) :
    logFreqs lib df =
      ((lib.welch df.R_functional 1).1.drop 1).map lib.log10
    ∧ psdStage lib df =
        ([.psdHeader,
          .slopeLine (polyfit1 (logFreqs lib df) (logPsd lib df)).1,
          if (polyfit1 (logFreqs lib df) (logPsd lib df)).1 < -1
          then .socStatus else .powerLawStatus], none)
    ∧ (Line.socStatus ∈ (psdStage lib df).1 ↔
        (polyfit1 (logFreqs lib df) (logPsd lib df)).1 < -1)
    ∧ (Line.powerLawStatus ∈ (psdStage lib df).1 ↔
        ¬(polyfit1 (logFreqs lib df) (logPsd lib df)).1 < -1)
    ∧ IsOLSFit (logFreqs lib df) (logPsd lib df)
        (polyfit1 (logFreqs lib df) (logPsd lib df)).1
        (polyfit1 (logFreqs lib df) (logPsd lib df)).2 := by
  have hemp : (logFreqs lib df).isEmpty = false := by
    cases hc : logFreqs lib df with
    | nil => exact absurd hc hne
    | cons a t => simp
  have heq : psdStage lib df =
      ([.psdHeader,
        .slopeLine (polyfit1 (logFreqs lib df) (logPsd lib df)).1,
        if (polyfit1 (logFreqs lib df) (logPsd lib df)).1 < -1
        then .socStatus else .powerLawStatus], none) := by
    unfold psdStage
    rw [if_neg (by simp [hlen]), if_neg (by simp [hemp])]
  refine ⟨rfl, heq, ?_, ?_, polyfit1_isOLS _ _ hlen hD⟩
  · rw [heq]
    by_cases hs : (polyfit1 (logFreqs lib df) (logPsd lib df)).1 < -1 <;>
      simp [hs]
  · rw [heq]
    by_cases hs : (polyfit1 (logFreqs lib df) (logPsd lib df)).1 < -1 <;>
      simp [hs]

theorem c7_witness :
    psdStage trivLib wdf = ([.psdHeader, .slopeLine 1, .powerLawStatus],
      none)
    ∧ IsOLSFit (logFreqs trivLib wdf) (logPsd trivLib wdf) 1 0 := by
  have h := c7_spectral trivLib wdf (by decide) (by decide)
    (by norm_num [logFreqs, trivLib])
  have hp : polyfit1 (logFreqs trivLib wdf) (logPsd trivLib wdf) =
      (1, 0) := by
    norm_num [polyfit1, logFreqs, logPsd, trivLib]
  constructor
  · rw [h.2.1, hp]
    norm_num
  · have h5 := h.2.2.2.2
    rw [hp] at h5
    exact h5
